import Mathlib

/-!
# Futside-Back: match lifecycle and notification fan-out, shallow embedding

This file embeds the core of `src/main.py` (FastAPI handlers `create_match`,
`join_match`, `start_match`, `update_score`, the helper
`send_batch_push_notifications`, the MQTT wrapper `publish_mqtt_message`,
and the recipient-resolution block inside `create_match`) as executable
Lean definitions, and proves the lifecycle/notification claims about them.

Modelling choices:
* The SQLAlchemy store is a record of lists (`DB`); `query(...).first()` is
  `List.find?`, `count()` is `filter` + `length`, an ORM insert appends.
* Python `datetime.date` values are day ordinals (`Int`); only their order
  matters to the code under study.
* Auto-increment primary keys are modelled by `next_match_id` (one more
  than the maximum id in the table).
* A handler either raises `HTTPException(status_code, detail)` or returns;
  an operation result (`OpResult`) carries the outcome, the database after
  the call, and the list of MQTT publish requests the handler issued.
* `publish_mqtt_message` catches every exception of the underlying client,
  so its embedding returns `Except String Bool` where the error branch is
  provably unreachable; the paho client's behaviour is a parameter.
-/

/-- `MatchStatusEnum` of `main.py`. -/
inductive MatchStatus
  | scheduled
  | confirmed
  | in_progress
  | canceled
  | completed
deriving DecidableEq, Repr

/-- Row of table `match` (columns used by the handlers under study). -/
structure MatchRec where
  id : Nat
  field_id : Nat
  creator_id : Nat
  title : String
  descr : Option String
  date : Int
  start_time : Nat
  end_time : Nat
  max_players : Int
  status : MatchStatus
  score_a : Int
  score_b : Int
deriving DecidableEq, Repr

/-- Row of table `player_match`. -/
structure PlayerMatchRec where
  match_id : Nat
  user_id : Nat
deriving DecidableEq, Repr

/-- Row of table `user` (columns used by the handlers under study). -/
structure UserRec where
  id : Nat
  name : String
  fcm_token : Option String
deriving DecidableEq, Repr

/-- Row of table `field` (columns used by the handlers under study). -/
structure FieldRec where
  id : Nat
  city : String
deriving DecidableEq, Repr

/-- Row of table `user_region_subscription`. -/
structure SubscriptionRec where
  user_id : Nat
  city : String
deriving DecidableEq, Repr

/-- The relational store consumed by the handlers. -/
structure DB where
  fields : List FieldRec
  users : List UserRec
  matches_ : List MatchRec
  player_matches : List PlayerMatchRec
  subscriptions : List SubscriptionRec
deriving DecidableEq, Repr

/-- `fastapi.HTTPException` as raised by the handlers. -/
structure HTTPExc where
  status_code : Nat
  detail : String
deriving DecidableEq, Repr

/-- Outcome of a handler: it either returns normally or raises. -/
inductive Outcome
  | ok
  | raised (e : HTTPExc)
deriving DecidableEq, Repr

/-- Payload (`data` field) of the MQTT envelopes built by the handlers. -/
inductive EventData
  | matchStarted (match_id : Nat)
  | playerJoined (user_id : Nat) (user_name : String)
      (player_count : Nat) (max_players : Int)
  | scoreUpdate (score_a : Int) (score_b : Int)
  | newMatch (m : MatchRec)
deriving DecidableEq, Repr

/-- An MQTT message envelope `{event: ..., data: ...}`. -/
structure Envelope where
  event : String
  data : EventData
deriving DecidableEq, Repr

/-- A `publish_mqtt_message(topic, payload)` request issued by a handler. -/
structure PublishReq where
  topic : String
  payload : Envelope
deriving DecidableEq, Repr

/-- Result of one handler call: outcome, store after the call, and the
publish requests the handler issued (in order). -/
structure OpResult where
  res : Outcome
  db : DB
  published : List PublishReq
deriving DecidableEq, Repr

/-- `HTTPException(404, "Partida não encontrada")`. -/
def matchNotFoundErr : HTTPExc := ⟨404, "Partida não encontrada"⟩

/-- `HTTPException(400, "Não pode entrar em partidas passadas")`. -/
def pastMatchErr : HTTPExc := ⟨400, "Não pode entrar em partidas passadas"⟩

/-- `HTTPException(400, "Já está na partida")`. -/
def alreadyJoinedErr : HTTPExc := ⟨400, "Já está na partida"⟩

/-- `HTTPException(400, "Partida cheia")`. -/
def matchFullErr : HTTPExc := ⟨400, "Partida cheia"⟩

/-- `HTTPException(403, ...)` raised by `start_match` for a non-creator. -/
def startForbiddenErr : HTTPExc :=
  ⟨403, "Apenas o criador pode iniciar a partida."⟩

/-- `HTTPException(403, ...)` raised by `update_score` for a non-creator. -/
def scoreForbiddenErr : HTTPExc :=
  ⟨403, "Apenas o criador pode alterar o placar."⟩

/-- `HTTPException(404, ...)` raised by `create_match` for a missing field. -/
def fieldNotFoundErr (fid : Nat) : HTTPExc :=
  ⟨404, "Quadra com id " ++ toString fid ++ " não encontrada"⟩

/-- `db.query(Match).filter(Match.id == match_id).first()`. -/
def find_match (db : DB) (mid : Nat) : Option MatchRec :=
  db.matches_.find? (fun m => m.id == mid)

/-- `db.query(Field).filter(Field.id == field_id).first()`. -/
def find_field (db : DB) (fid : Nat) : Option FieldRec :=
  db.fields.find? (fun f => f.id == fid)

/-- `db.query(PlayerMatch).filter(match_id == ..., user_id == ...).first()`
as a Boolean existence check (`join_match`, line 850). -/
def existing_player (db : DB) (mid uid : Nat) : Bool :=
  db.player_matches.any (fun pm => pm.match_id == mid && pm.user_id == uid)

/-- `db.query(PlayerMatch).filter(PlayerMatch.match_id == match_id).count()`
(`join_match`, line 859; also the hybrid property `Match.player_count`). -/
def player_count (db : DB) (mid : Nat) : Nat :=
  (db.player_matches.filter (fun pm => pm.match_id == mid)).length

/-- `MQTT_TOPIC_REGIONAL_BASE` (line 422 of `main.py`). -/
def MQTT_TOPIC_REGIONAL_BASE : String := "futside/matches"

/-- `MQTT_TOPIC_MATCH_BASE` (line 423 of `main.py`). -/
def MQTT_TOPIC_MATCH_BASE : String := "futside/match"

/-- Python `str.lower`, modelled character by character (the cities the
code handles are ASCII, where `Char.toLower` agrees with Python). -/
def py_lower (s : String) : String :=
  String.mk (s.data.map Char.toLower)

/-- Python `str.strip`: drop leading and trailing whitespace. -/
def py_strip (s : String) : String :=
  String.mk
    (((s.data.dropWhile Char.isWhitespace).reverse.dropWhile
        Char.isWhitespace).reverse)

/-- `db_field.city.lower().replace(' ', '-')` (`create_match`, line 781);
the replacement pattern is the single space character, so it acts char by
char. -/
def normalize_city (c : String) : String :=
  String.mk ((py_lower c).data.map (fun ch => if ch = ' ' then '-' else ch))

/-- The regional topic string built in `create_match` (line 785). -/
def regional_topic (city : String) : String :=
  MQTT_TOPIC_REGIONAL_BASE ++ "/" ++ normalize_city city

/-- The lobby topic string built in `start_match` / `join_match`. -/
def lobby_topic (mid : Nat) : String :=
  MQTT_TOPIC_MATCH_BASE ++ "/" ++ toString mid ++ "/updates"

/-- The live topic string built in `update_score` (line 538). -/
def live_topic (mid : Nat) : String :=
  MQTT_TOPIC_MATCH_BASE ++ "/" ++ toString mid ++ "/live_updates"

/-- The validation phase of `join_match` (lines 841-861): the reads the
handler performs before it writes anything. Returns the exception it would
raise, or `none` when every check passes. -/
def join_check (db : DB) (today : Int) (mid uid : Nat) : Option HTTPExc :=
  match find_match db mid with
  | none => some matchNotFoundErr
  | some m =>
    if m.date < today then some pastMatchErr
    else if existing_player db mid uid then some alreadyJoinedErr
    else if m.max_players ≤ (player_count db mid : Int) then some matchFullErr
    else none

/-- The write phase of `join_match` (lines 864-866): insert one
`PlayerMatch(match_id, user_id)` row and commit. -/
def join_insert (db : DB) (mid uid : Nat) : DB :=
  { db with player_matches := db.player_matches ++ [⟨mid, uid⟩] }

/-- `join_match` (lines 833-884): validate, insert, then publish one
`player_joined` envelope on the lobby topic. -/
def join_match (db : DB) (today : Int) (mid : Nat) (u : UserRec) : OpResult :=
  match find_match db mid with
  | none => ⟨.raised matchNotFoundErr, db, []⟩
  | some m =>
    if m.date < today then ⟨.raised pastMatchErr, db, []⟩
    else if existing_player db mid u.id then ⟨.raised alreadyJoinedErr, db, []⟩
    else
      let cnt := player_count db mid
      if m.max_players ≤ (cnt : Int) then ⟨.raised matchFullErr, db, []⟩
      else
        ⟨.ok, join_insert db mid u.id,
          [⟨lobby_topic mid,
            ⟨"player_joined", .playerJoined u.id u.name (cnt + 1) m.max_players⟩⟩]⟩

/-- `UPDATE match SET status = st WHERE id = mid` (the ORM mutation plus
commit in `start_match`, lines 513-514). -/
def set_status (db : DB) (mid : Nat) (st : MatchStatus) : DB :=
  { db with matches_ :=
      db.matches_.map (fun m => if m.id = mid then { m with status := st } else m) }

/-- `UPDATE match SET score_a = sa, score_b = sb WHERE id = mid`
(the ORM mutation plus commit in `update_score`, lines 533-535). -/
def set_scores (db : DB) (mid : Nat) (sa sb : Int) : DB :=
  { db with matches_ :=
      db.matches_.map (fun m =>
        if m.id = mid then { m with score_a := sa, score_b := sb } else m) }

/-- `start_match` (lines 504-521): 404 when absent, 403 when the caller is
not the creator, otherwise set status to `in_progress` (unconditionally)
and publish `match_started` on the lobby topic. -/
def start_match (db : DB) (mid : Nat) (actor : UserRec) : OpResult :=
  match find_match db mid with
  | none => ⟨.raised matchNotFoundErr, db, []⟩
  | some m =>
    if m.creator_id ≠ actor.id then ⟨.raised startForbiddenErr, db, []⟩
    else
      ⟨.ok, set_status db mid .in_progress,
        [⟨lobby_topic mid, ⟨"match_started", .matchStarted mid⟩⟩]⟩

/-- `update_score` (lines 524-542): 404 when absent, 403 when the caller is
not the creator, otherwise set both scores (no status check) and publish
`score_update` on the live topic. -/
def update_score (db : DB) (mid : Nat) (actor : UserRec) (sa sb : Int) : OpResult :=
  match find_match db mid with
  | none => ⟨.raised matchNotFoundErr, db, []⟩
  | some m =>
    if m.creator_id ≠ actor.id then ⟨.raised scoreForbiddenErr, db, []⟩
    else
      ⟨.ok, set_scores db mid sa sb,
        [⟨live_topic mid, ⟨"score_update", .scoreUpdate sa sb⟩⟩]⟩

/-- The auto-increment primary key the store assigns to a new `match` row. -/
def next_match_id (db : DB) : Nat :=
  (db.matches_.map MatchRec.id).foldr max 0 + 1

/-- The body of `MatchCreate` (request schema for `create_match`). -/
structure MatchCreate where
  field_id : Nat
  title : String
  descr : Option String
  date : Int
  start_time : Nat
  end_time : Nat
  max_players : Int
deriving DecidableEq, Repr

/-- `create_match` (lines 756-791, the state change and the regional MQTT
publish): 404 when the field is absent, otherwise insert a `scheduled`
match with zero scores and publish one `new_match` envelope on
`futside/matches/<normalized city>`. -/
def create_match (db : DB) (creator : UserRec) (req : MatchCreate) : OpResult :=
  match find_field db req.field_id with
  | none => ⟨.raised (fieldNotFoundErr req.field_id), db, []⟩
  | some f =>
    let m : MatchRec :=
      { id := next_match_id db, field_id := req.field_id,
        creator_id := creator.id, title := req.title, descr := req.descr,
        date := req.date, start_time := req.start_time,
        end_time := req.end_time, max_players := req.max_players,
        status := .scheduled, score_a := 0, score_b := 0 }
    ⟨.ok, { db with matches_ := db.matches_ ++ [m] },
      [⟨regional_topic f.city, ⟨"new_match", .newMatch m⟩⟩]⟩

/-- `{sub.user_id for sub in subscriptions}` where subscriptions are the
rows with `lower(city) == lower(db_field.city)` (`create_match`,
lines 794-798): a deduplicated list of subscribed user ids. -/
def subscribed_user_ids (db : DB) (city : String) : List Nat :=
  ((db.subscriptions.filter
      (fun s => py_lower s.city == py_lower city)).map SubscriptionRec.user_id).dedup

/-- A usable notification target: the code keeps a user only when
`fcm_token IS NOT NULL` (SQL filter, line 805) and the token is truthy
(list comprehension, line 808), i.e. the empty-string token counts as
absent. -/
def token_present (u : UserRec) : Bool :=
  match u.fcm_token with
  | some t => t != ""
  | none => false

/-- The recipient-resolution block of `create_match` (lines 794-809): the
users who will be targeted by the push dispatch — subscribers of the
field's city (case-insensitively), minus the acting user, minus users
without a usable token. When nobody is subscribed the user query is
skipped and the result is empty. -/
def resolve_recipients (db : DB) (city : String) (excludeId : Nat) : List UserRec :=
  let ids := subscribed_user_ids db city
  if ids.isEmpty then []
  else
    db.users.filter
      (fun u => ids.contains u.id && u.id != excludeId && token_present u)

/-- Behaviour of `paho.Client.publish` / `json.dumps` inside the `try` of
`publish_mqtt_message`: it may return success, return a nonzero error
code, or raise. -/
inductive PublishBehavior
  | returnsSuccess
  | returnsErrCode (rc : Nat)
  | raisesExc
deriving DecidableEq, Repr

/-- `publish_mqtt_message` (lines 464-487): when the global client is
absent or disconnected, log and return `False`; otherwise publish inside a
`try`/`except` that maps a success code to `True` and everything else —
including a raised exception — to `False`. The `Except.error` branch of
the return type corresponds to an exception escaping to the caller; the
theorems show it never happens. -/
def publish_mqtt_message (mqtt_connected client_present : Bool)
    (b : PublishBehavior) : Except String Bool :=
  if !mqtt_connected || !client_present then .ok false
  else
    match b with
    | .returnsSuccess => .ok true
    | .returnsErrCode _ => .ok false
    | .raisesExc => .ok false

/-- How every handler uses the publisher: after the commit it calls
`publish_mqtt_message` once per prepared request and discards the returned
Boolean, so the handler's own result is the already-computed `op`. -/
def run_and_publish (op : OpResult) (mqtt_connected client_present : Bool)
    (b : PublishBehavior) : OpResult × List (Except String Bool) :=
  (op, op.published.map (fun _ => publish_mqtt_message mqtt_connected client_present b))

/-- The multicast response of `messaging.send_each_for_multicast`. -/
structure MulticastResponse where
  success_count : Nat
  failure_count : Nat
deriving DecidableEq, Repr

/-- Behaviour of the FCM provider call inside the `try` of
`send_batch_push_notifications`: it responds or raises. -/
inductive ProviderBehavior
  | responds (r : MulticastResponse)
  | raisesExc
deriving DecidableEq, Repr

/-- What one call to `send_batch_push_notifications` did: whether the
provider multicast was invoked, how many sends succeeded, and the
function's Python return value. -/
structure PushOutcome where
  provider_invoked : Bool
  success_count : Nat
  returned : Bool
deriving DecidableEq, Repr

/-- `[token.strip() for token in tokens if token and token.strip()]`
(line 366): drop falsy and blank tokens, strip the rest. -/
def valid_tokens (tokens : List String) : List String :=
  (tokens.filter (fun t => t != "" && py_strip t != "")).map py_strip

/-- `send_batch_push_notifications` (lines 357-417): skip everything when
Firebase is not initialized or no valid token remains; otherwise perform
one multicast and return `success_count > 0`, with any provider exception
caught and mapped to `False`. -/
def send_batch_push_notifications (firebase_initialized : Bool)
    (tokens : List String) (pb : ProviderBehavior) : PushOutcome :=
  if !firebase_initialized then ⟨false, 0, false⟩
  else if (valid_tokens tokens).isEmpty then ⟨false, 0, false⟩
  else
    match pb with
    | .responds r => ⟨true, r.success_count, decide (0 < r.success_count)⟩
    | .raisesExc => ⟨true, 0, false⟩

/-- One call to a mutating lifecycle handler, with its request data. -/
inductive LifecycleOp
  | create (creator : UserRec) (req : MatchCreate)
  | join (today : Int) (mid : Nat) (u : UserRec)
  | start (mid : Nat) (actor : UserRec)
  | score (mid : Nat) (actor : UserRec) (sa sb : Int)
deriving Repr

/-- The store after one handler call (the handler's other outputs are
dropped; a failed call leaves the store unchanged). -/
def applyOp (db : DB) : LifecycleOp → DB
  | .create c r => (create_match db c r).db
  | .join t mid u => (join_match db t mid u).db
  | .start mid a => (start_match db mid a).db
  | .score mid a sa sb => (update_score db mid a sa sb).db

/-- The store after a sequence of handler calls, executed sequentially. -/
def runOps (db : DB) (ops : List LifecycleOp) : DB :=
  ops.foldl applyOp db

/-- Primary-key uniqueness of the `match` table. -/
def match_ids_nodup (db : DB) : Prop :=
  (db.matches_.map MatchRec.id).Nodup

/-- Foreign-key integrity: every `player_match` row references an existing
`match` row. -/
def players_ref_ok (db : DB) : Prop :=
  ∀ pm ∈ db.player_matches, ∃ m ∈ db.matches_, m.id = pm.match_id

/-- The capacity invariant of the spec: `player_count ≤ max_players` for
every match. -/
def capacity_ok (db : DB) : Prop :=
  ∀ m ∈ db.matches_, (player_count db m.id : Int) ≤ m.max_players

/-- The store invariant maintained by the lifecycle handlers. -/
def StoreInv (db : DB) : Prop :=
  match_ids_nodup db ∧ players_ref_ok db ∧ capacity_ok db

/-- A creation request with a non-negative capacity (nothing in the code
validates this; it is the side condition the capacity invariant needs). -/
def nonneg_capacity : LifecycleOp → Prop
  | .create _ r => 0 ≤ r.max_players
  | _ => True

/-- Concrete store for witnesses: one field in Brasilia, one user, one
scheduled two-player match dated day 10 with no players yet. -/
def wDB : DB :=
  ⟨[⟨1, "Brasilia"⟩], [⟨1, "ana", some "tokA"⟩],
    [⟨1, 1, 1, "pelada", none, 10, 0, 0, 2, .scheduled, 0, 0⟩], [], []⟩

/-- The user of `wDB`. -/
def wUser : UserRec := ⟨1, "ana", some "tokA"⟩

/-- The match row of `wDB`. -/
def wMatch : MatchRec := ⟨1, 1, 1, "pelada", none, 10, 0, 0, 2, .scheduled, 0, 0⟩

/-- Store with a `completed` match whose creator is user 7. -/
def cxStartDB : DB :=
  ⟨[], [⟨7, "carla", none⟩], [⟨1, 1, 7, "t", none, 10, 0, 0, 10, .completed, 0, 0⟩], [], []⟩

/-- The creator of the completed match in `cxStartDB`. -/
def cxStartUser : UserRec := ⟨7, "carla", none⟩

/-- Store with a capacity-1 scheduled match (creator 9) and two distinct
users, nobody joined yet. -/
def raceDB : DB :=
  ⟨[], [⟨1, "u1", none⟩, ⟨2, "u2", none⟩],
    [⟨1, 1, 9, "t", none, 10, 0, 0, 1, .scheduled, 0, 0⟩], [], []⟩

/-- First joiner in the race scenario. -/
def raceU1 : UserRec := ⟨1, "u1", none⟩

/-- Second joiner in the race scenario. -/
def raceU2 : UserRec := ⟨2, "u2", none⟩

/-- Store holding only a field, for the negative-capacity scenario. -/
def negDB : DB := ⟨[⟨1, "c"⟩], [⟨5, "nina", none⟩], [], [], []⟩

/-- The creating user of the negative-capacity scenario. -/
def negUser : UserRec := ⟨5, "nina", none⟩

/-- A creation request asking for `max_players = -1` (no validation in the
code rejects it). -/
def negReq : MatchCreate := ⟨1, "t", none, 5, 0, 0, -1⟩

/-- Store for the recipient-resolution witness: field city `Brasilia`;
user 2 subscribed to `brasilia` with a token, user 3 subscribed with no
token, user 1 is the creator and also subscribed. -/
def subDB : DB :=
  ⟨[⟨1, "Brasilia"⟩],
    [⟨1, "creator", some "tokC"⟩, ⟨2, "bia", some "tokB"⟩, ⟨3, "caio", none⟩],
    [], [],
    [⟨1, "brasilia"⟩, ⟨2, "brasilia"⟩, ⟨3, "Brasilia"⟩]⟩

/-- A creation request for field 1 of `subDB` / `wDB`. -/
def wReq : MatchCreate := ⟨1, "pelada", none, 12, 0, 0, 10⟩

theorem find_match_mem {db : DB} {mid : Nat} {m : MatchRec}
    (h : find_match db mid = some m) : m ∈ db.matches_ :=
  List.mem_of_find?_eq_some h

theorem find_match_id {db : DB} {mid : Nat} {m : MatchRec}
    (h : find_match db mid = some m) : m.id = mid := by
  simpa using List.find?_some h

theorem join_match_cases (db : DB) (today : Int) (mid : Nat) (u : UserRec) :
    (find_match db mid = none →
      join_match db today mid u = ⟨.raised matchNotFoundErr, db, []⟩) ∧
    ∀ m, find_match db mid = some m →
      (m.date < today →
        join_match db today mid u = ⟨.raised pastMatchErr, db, []⟩) ∧
      (¬ m.date < today → existing_player db mid u.id = true →
        join_match db today mid u = ⟨.raised alreadyJoinedErr, db, []⟩) ∧
      (¬ m.date < today → existing_player db mid u.id = false →
        m.max_players ≤ (player_count db mid : Int) →
        join_match db today mid u = ⟨.raised matchFullErr, db, []⟩) ∧
      (¬ m.date < today → existing_player db mid u.id = false →
        (player_count db mid : Int) < m.max_players →
        join_match db today mid u =
          ⟨.ok, { db with player_matches := db.player_matches ++ [⟨mid, u.id⟩] },
            [⟨lobby_topic mid,
              ⟨"player_joined",
                .playerJoined u.id u.name (player_count db mid + 1) m.max_players⟩⟩]⟩) := by
  constructor
  · intro h
    simp [join_match, h]
  · intro m hm
    refine ⟨?_, ?_, ?_, ?_⟩
    · intro hd
      simp [join_match, hm, hd]
    · intro hd he
      simp [join_match, hm, hd, he]
    · intro hd he hc
      simp [join_match, hm, hd, he, hc]
    · intro hd he hc
      simp [join_match, join_insert, hm, hd, he, not_le.mpr hc]

/-- C1: `Join` fails with `NotFound` when the match is absent, with
`InvalidState` (the past-match rejection) when `match.date` is strictly
before today, with `Conflict` when a `PlayerMatch` for `(match, user)`
already exists, and with `CapacityExceeded` when the current player count
has reached `max_players`; on each failure the store is unchanged (no
`PlayerMatch` row) and no publish request is issued; otherwise exactly one
`PlayerMatch (match, user)` row is appended and one `player_joined`
envelope is requested. -/
theorem join_match_characterization (db : DB) (today : Int) (mid : Nat) (u : UserRec) :
    (find_match db mid = none →
      join_match db today mid u = ⟨.raised matchNotFoundErr, db, []⟩) ∧
    ∀ m, find_match db mid = some m →
      (m.date < today →
        join_match db today mid u = ⟨.raised pastMatchErr, db, []⟩) ∧
      (¬ m.date < today → existing_player db mid u.id = true →
        join_match db today mid u = ⟨.raised alreadyJoinedErr, db, []⟩) ∧
      (¬ m.date < today → existing_player db mid u.id = false →
        m.max_players ≤ (player_count db mid : Int) →
        join_match db today mid u = ⟨.raised matchFullErr, db, []⟩) ∧
      (¬ m.date < today → existing_player db mid u.id = false →
        (player_count db mid : Int) < m.max_players →
        join_match db today mid u =
          ⟨.ok, { db with player_matches := db.player_matches ++ [⟨mid, u.id⟩] },
            [⟨lobby_topic mid,
              ⟨"player_joined",
                .playerJoined u.id u.name (player_count db mid + 1) m.max_players⟩⟩]⟩) :=
  join_match_cases db today mid u

theorem join_match_characterization_witness :
    (join_match wDB 10 1 wUser).res = .ok ∧
    (join_match wDB 10 1 wUser).db.player_matches =
      wDB.player_matches ++ [⟨1, 1⟩] := by
  have h :=
    (((join_match_characterization wDB 10 1 wUser).2 wMatch (by decide)).2.2.2
      (by decide) (by decide) (by decide))
  rw [h]
  exact ⟨rfl, rfl⟩

/-- C3 counterexample: `start_match` performs no status check. On a store
whose match 1 is already `completed` (creator 7), a call by the creator
does not fail with any invalid-state error — it succeeds and rewrites the
status to `in_progress`, contradicting the claim that `Start` fails with
`InvalidState` whenever the current status is not `scheduled`. -/
theorem start_match_counterexample :
    (find_match cxStartDB 1).map MatchRec.status = some MatchStatus.completed ∧
    (start_match cxStartDB 1 cxStartUser).res = .ok ∧
    (find_match ((start_match cxStartDB 1 cxStartUser).db) 1).map MatchRec.status =
      some MatchStatus.in_progress := by
  decide

/-- C3 (amended): `Start` fails with `NotFound` when the match is absent
and with `Forbidden` (store unchanged, so the status is unchanged) when
the actor is not the match's creator; when the actor is the creator it
transitions the status to `in_progress` unconditionally — the code has no
`InvalidState` guard, so the transition happens from any current status. -/
theorem start_match_characterization (db : DB) (mid : Nat) (actor : UserRec) :
    (find_match db mid = none →
      start_match db mid actor = ⟨.raised matchNotFoundErr, db, []⟩) ∧
    ∀ m, find_match db mid = some m →
      (m.creator_id ≠ actor.id →
        start_match db mid actor = ⟨.raised startForbiddenErr, db, []⟩) ∧
      (m.creator_id = actor.id →
        start_match db mid actor =
          ⟨.ok, set_status db mid .in_progress,
            [⟨lobby_topic mid, ⟨"match_started", .matchStarted mid⟩⟩]⟩) := by
  constructor
  · intro h
    simp [start_match, h]
  · intro m hm
    constructor
    · intro hne
      simp [start_match, hm, hne]
    · intro heq
      simp [start_match, hm, heq]

theorem start_match_characterization_witness :
    start_match cxStartDB 1 cxStartUser =
      ⟨.ok, set_status cxStartDB 1 .in_progress,
        [⟨lobby_topic 1, ⟨"match_started", .matchStarted 1⟩⟩]⟩ :=
  ((start_match_characterization cxStartDB 1 cxStartUser).2
    ⟨1, 1, 7, "t", none, 10, 0, 0, 10, .completed, 0, 0⟩ (by decide)).2 (by decide)

theorem find_match_set_scores {db : DB} {mid : Nat} {m : MatchRec} (sa sb : Int)
    (hm : find_match db mid = some m) :
    find_match (set_scores db mid sa sb) mid =
      some { m with score_a := sa, score_b := sb } := by
  unfold find_match set_scores at *
  revert hm
  induction db.matches_ with
  | nil => intro h; cases h
  | cons x xs ih =>
    intro h
    by_cases hx : x.id = mid
    · rw [List.find?_cons_of_pos _ (by simpa using hx)] at h
      cases h
      rw [List.map_cons, List.find?_cons_of_pos _ (by simp [hx])]
      simp [hx]
    · rw [List.find?_cons_of_neg _ (by simpa using hx)] at h
      simpa [hx] using ih h

theorem set_scores_idem (db : DB) (mid : Nat) (sa sb : Int) :
    set_scores (set_scores db mid sa sb) mid sa sb = set_scores db mid sa sb := by
  have hg :
      (fun m : MatchRec =>
          if m.id = mid then ({ m with score_a := sa, score_b := sb } : MatchRec) else m) ∘
        (fun m : MatchRec =>
          if m.id = mid then ({ m with score_a := sa, score_b := sb } : MatchRec) else m) =
      fun m : MatchRec =>
        if m.id = mid then ({ m with score_a := sa, score_b := sb } : MatchRec) else m := by
    funext m
    by_cases h : m.id = mid <;> simp [Function.comp, h]
  simp only [set_scores, List.map_map, hg]

theorem update_score_success {db : DB} {mid : Nat} {actor : UserRec} {sa sb : Int}
    {m : MatchRec} (hm : find_match db mid = some m) (hc : m.creator_id = actor.id) :
    update_score db mid actor sa sb =
      ⟨.ok, set_scores db mid sa sb,
        [⟨live_topic mid, ⟨"score_update", .scoreUpdate sa sb⟩⟩]⟩ := by
  simp [update_score, hm, hc]

/-- C9: `UpdateScore` fails with `NotFound` when the match is absent and
with `Forbidden` when the actor is not the creator (store unchanged, no
publish in either case); when the actor is the creator it sets both scores
without any status check (the success branch carries no condition on the
match's status) and requests exactly one `score_update` envelope on the
live topic. Repeating the call with the same values is idempotent on the
persisted store, while the repeat issues its own (equal) `score_update`
publish request — publishing is not deduplicated by value. -/
theorem update_score_characterization (db : DB) (mid : Nat) (actor : UserRec) (sa sb : Int) :
    (find_match db mid = none →
      update_score db mid actor sa sb = ⟨.raised matchNotFoundErr, db, []⟩) ∧
    (∀ m, find_match db mid = some m →
      (m.creator_id ≠ actor.id →
        update_score db mid actor sa sb = ⟨.raised scoreForbiddenErr, db, []⟩) ∧
      (m.creator_id = actor.id →
        update_score db mid actor sa sb =
          ⟨.ok, set_scores db mid sa sb,
            [⟨live_topic mid, ⟨"score_update", .scoreUpdate sa sb⟩⟩]⟩)) ∧
    (update_score (update_score db mid actor sa sb).db mid actor sa sb).db =
      (update_score db mid actor sa sb).db ∧
    (update_score (update_score db mid actor sa sb).db mid actor sa sb).published =
      (update_score db mid actor sa sb).published := by
  have hchar1 : find_match db mid = none →
      update_score db mid actor sa sb = ⟨.raised matchNotFoundErr, db, []⟩ := by
    intro h
    simp [update_score, h]
  have hchar2 : ∀ m, find_match db mid = some m →
      (m.creator_id ≠ actor.id →
        update_score db mid actor sa sb = ⟨.raised scoreForbiddenErr, db, []⟩) ∧
      (m.creator_id = actor.id →
        update_score db mid actor sa sb =
          ⟨.ok, set_scores db mid sa sb,
            [⟨live_topic mid, ⟨"score_update", .scoreUpdate sa sb⟩⟩]⟩) := by
    intro m hm
    constructor
    · intro hne
      simp [update_score, hm, hne]
    · intro heq
      exact update_score_success hm heq
  refine ⟨hchar1, hchar2, ?_, ?_⟩ <;>
  · cases hm : find_match db mid with
    | none =>
      simp only [hchar1 hm]
    | some m =>
      by_cases hc : m.creator_id = actor.id
      · have hm2 := find_match_set_scores sa sb hm
        have hc2 : ({ m with score_a := sa, score_b := sb } : MatchRec).creator_id
            = actor.id := hc
        simp only [update_score_success hm hc, update_score_success hm2 hc2,
          set_scores_idem]
      · simp only [(hchar2 m hm).1 hc]

theorem update_score_characterization_witness :
    update_score wDB 1 wUser 3 4 =
      ⟨.ok, set_scores wDB 1 3 4,
        [⟨live_topic 1, ⟨"score_update", .scoreUpdate 3 4⟩⟩]⟩ :=
  ((update_score_characterization wDB 1 wUser 3 4).2.1 wMatch (by decide)).2 (by decide)

theorem set_scores_matches_field {α : Type} (db : DB) (mid : Nat) (sa sb : Int)
    (f : MatchRec → α)
    (hf : ∀ m : MatchRec, f { m with score_a := sa, score_b := sb } = f m) (i : Nat) :
    ((set_scores db mid sa sb).matches_[i]?).map f = (db.matches_[i]?).map f := by
  simp only [set_scores]
  rw [List.getElem?_map]
  cases hmo : db.matches_[i]? with
  | none => rfl
  | some m =>
    by_cases h : m.id = mid
    · simp only [Option.map_some', if_pos h, hf m]
    · simp only [Option.map_some', if_neg h]

theorem update_score_ok_db {db : DB} {mid : Nat} {actor : UserRec} {sa sb : Int}
    (h : (update_score db mid actor sa sb).res = .ok) :
    (update_score db mid actor sa sb).db = set_scores db mid sa sb := by
  cases hm : find_match db mid with
  | none => simp [update_score, hm] at h
  | some m =>
    by_cases hc : m.creator_id = actor.id
    · simp [update_score, hm, hc]
    · simp [update_score, hm, hc] at h

/-- C10 (frame property): a successful `UpdateScore` changes nothing but
the two score columns — the user, field, subscription and player-roster
tables are untouched, the `match` table keeps its length, and every match
row keeps its id, field reference, creator, title, description, date,
times, capacity and status. -/
theorem update_score_frame (db : DB) (mid : Nat) (actor : UserRec) (sa sb : Int)
    (h : (update_score db mid actor sa sb).res = .ok) :
    (update_score db mid actor sa sb).db.users = db.users ∧
    (update_score db mid actor sa sb).db.fields = db.fields ∧
    (update_score db mid actor sa sb).db.player_matches = db.player_matches ∧
    (update_score db mid actor sa sb).db.subscriptions = db.subscriptions ∧
    (update_score db mid actor sa sb).db.matches_.length = db.matches_.length ∧
    ∀ i : Nat,
      ((update_score db mid actor sa sb).db.matches_[i]?).map MatchRec.id =
        (db.matches_[i]?).map MatchRec.id ∧
      ((update_score db mid actor sa sb).db.matches_[i]?).map MatchRec.field_id =
        (db.matches_[i]?).map MatchRec.field_id ∧
      ((update_score db mid actor sa sb).db.matches_[i]?).map MatchRec.creator_id =
        (db.matches_[i]?).map MatchRec.creator_id ∧
      ((update_score db mid actor sa sb).db.matches_[i]?).map MatchRec.title =
        (db.matches_[i]?).map MatchRec.title ∧
      ((update_score db mid actor sa sb).db.matches_[i]?).map MatchRec.descr =
        (db.matches_[i]?).map MatchRec.descr ∧
      ((update_score db mid actor sa sb).db.matches_[i]?).map MatchRec.date =
        (db.matches_[i]?).map MatchRec.date ∧
      ((update_score db mid actor sa sb).db.matches_[i]?).map MatchRec.start_time =
        (db.matches_[i]?).map MatchRec.start_time ∧
      ((update_score db mid actor sa sb).db.matches_[i]?).map MatchRec.end_time =
        (db.matches_[i]?).map MatchRec.end_time ∧
      ((update_score db mid actor sa sb).db.matches_[i]?).map MatchRec.max_players =
        (db.matches_[i]?).map MatchRec.max_players ∧
      ((update_score db mid actor sa sb).db.matches_[i]?).map MatchRec.status =
        (db.matches_[i]?).map MatchRec.status := by
  rw [update_score_ok_db h]
  refine ⟨rfl, rfl, rfl, rfl, by simp [set_scores], ?_⟩
  intro i
  exact ⟨set_scores_matches_field db mid sa sb MatchRec.id (fun m => rfl) i,
    set_scores_matches_field db mid sa sb MatchRec.field_id (fun m => rfl) i,
    set_scores_matches_field db mid sa sb MatchRec.creator_id (fun m => rfl) i,
    set_scores_matches_field db mid sa sb MatchRec.title (fun m => rfl) i,
    set_scores_matches_field db mid sa sb MatchRec.descr (fun m => rfl) i,
    set_scores_matches_field db mid sa sb MatchRec.date (fun m => rfl) i,
    set_scores_matches_field db mid sa sb MatchRec.start_time (fun m => rfl) i,
    set_scores_matches_field db mid sa sb MatchRec.end_time (fun m => rfl) i,
    set_scores_matches_field db mid sa sb MatchRec.max_players (fun m => rfl) i,
    set_scores_matches_field db mid sa sb MatchRec.status (fun m => rfl) i⟩

theorem update_score_frame_witness :
    (update_score wDB 1 wUser 3 4).db.player_matches = wDB.player_matches ∧
    ((update_score wDB 1 wUser 3 4).db.matches_[0]?).map MatchRec.status =
      (wDB.matches_[0]?).map MatchRec.status :=
  ⟨(update_score_frame wDB 1 wUser 3 4 (by decide)).2.2.1,
    ((update_score_frame wDB 1 wUser 3 4 (by decide)).2.2.2.2.2 0).2.2.2.2.2.2.2.2.2⟩

theorem mem_le_foldr_max (l : List Nat) (a : Nat) (h : a ∈ l) :
    a ≤ l.foldr max 0 := by
  induction l with
  | nil => cases h
  | cons x xs ih =>
    rcases List.mem_cons.mp h with rfl | h2
    · exact le_max_left _ _
    · exact le_trans (ih h2) (le_max_right _ _)

theorem id_lt_next_match_id {db : DB} {m : MatchRec} (h : m ∈ db.matches_) :
    m.id < next_match_id db :=
  Nat.lt_succ_of_le (mem_le_foldr_max _ _ (List.mem_map_of_mem MatchRec.id h))

theorem player_count_join_insert (db : DB) (mid uid x : Nat) :
    player_count (join_insert db mid uid) x =
      if x = mid then player_count db x + 1 else player_count db x := by
  unfold player_count join_insert
  simp only [List.filter_append, List.length_append]
  by_cases h : x = mid
  · subst h
    simp
  · have hb : (mid == x) = false := by simp [Ne.symm h]
    simp [hb, h]

theorem player_count_matches_irrelevant (db : DB) (l : List MatchRec) (x : Nat) :
    player_count { db with matches_ := l } x = player_count db x := rfl

theorem storeInv_join (db : DB) (today : Int) (mid : Nat) (u : UserRec)
    (h : StoreInv db) : StoreInv (join_match db today mid u).db := by
  obtain ⟨hnd, href, hcap⟩ := h
  cases hm : find_match db mid with
  | none =>
    simp only [join_match, hm]
    exact ⟨hnd, href, hcap⟩
  | some m =>
    simp only [join_match, hm]
    by_cases h1 : m.date < today
    · rw [if_pos h1]; exact ⟨hnd, href, hcap⟩
    rw [if_neg h1]
    by_cases h2 : existing_player db mid u.id = true
    · rw [if_pos h2]; exact ⟨hnd, href, hcap⟩
    rw [if_neg h2]
    by_cases h3 : m.max_players ≤ (player_count db mid : Int)
    · rw [if_pos h3]; exact ⟨hnd, href, hcap⟩
    rw [if_neg h3]
    have hmem := find_match_mem hm
    have hid := find_match_id hm
    refine ⟨hnd, ?_, ?_⟩
    · intro pm hpm
      simp only [join_insert] at hpm
      rcases List.mem_append.mp hpm with hpm2 | hpm2
      · exact href pm hpm2
      · rcases List.mem_singleton.mp hpm2 with rfl
        exact ⟨m, hmem, hid⟩
    · intro m2 hm2
      have hm2m : m2 ∈ db.matches_ := hm2
      rw [player_count_join_insert]
      by_cases hx : m2.id = mid
      · have hm2eq : m2 = m :=
          List.inj_on_of_nodup_map hnd hm2m hmem (hx.trans hid.symm)
        subst hm2eq
        rw [if_pos hx, hx]
        have := Int.lt_iff_add_one_le.mp (lt_of_not_le h3)
        push_cast
        push_cast at this
        linarith
      · rw [if_neg hx]
        exact hcap m2 hm2m

theorem storeInv_map_matches (db : DB) (g : MatchRec → MatchRec)
    (hid : ∀ m, (g m).id = m.id) (hmax : ∀ m, (g m).max_players = m.max_players)
    (h : StoreInv db) : StoreInv { db with matches_ := db.matches_.map g } := by
  obtain ⟨hnd, href, hcap⟩ := h
  refine ⟨?_, ?_, ?_⟩
  · show (List.map MatchRec.id (List.map g db.matches_)).Nodup
    rw [List.map_map, show MatchRec.id ∘ g = MatchRec.id from funext hid]
    exact hnd
  · intro pm hpm
    rcases href pm hpm with ⟨m, hmm, hmid⟩
    exact ⟨g m, List.mem_map_of_mem g hmm, by rw [hid]; exact hmid⟩
  · intro m2 hm2
    rcases List.mem_map.mp hm2 with ⟨m, hmm, rfl⟩
    show ((player_count db (g m).id : Int)) ≤ (g m).max_players
    rw [hid, hmax]
    exact hcap m hmm

theorem storeInv_start (db : DB) (mid : Nat) (actor : UserRec)
    (h : StoreInv db) : StoreInv (start_match db mid actor).db := by
  cases hm : find_match db mid with
  | none => simp only [start_match, hm]; exact h
  | some m =>
    simp only [start_match, hm]
    by_cases hc : m.creator_id ≠ actor.id
    · rw [if_pos hc]; exact h
    · rw [if_neg hc]
      exact storeInv_map_matches db _
        (fun m2 => by by_cases h2 : m2.id = mid <;> simp [h2])
        (fun m2 => by by_cases h2 : m2.id = mid <;> simp [h2]) h

theorem storeInv_score (db : DB) (mid : Nat) (actor : UserRec) (sa sb : Int)
    (h : StoreInv db) : StoreInv (update_score db mid actor sa sb).db := by
  cases hm : find_match db mid with
  | none => simp only [update_score, hm]; exact h
  | some m =>
    simp only [update_score, hm]
    by_cases hc : m.creator_id ≠ actor.id
    · rw [if_pos hc]; exact h
    · rw [if_neg hc]
      exact storeInv_map_matches db _
        (fun m2 => by by_cases h2 : m2.id = mid <;> simp [h2])
        (fun m2 => by by_cases h2 : m2.id = mid <;> simp [h2]) h

theorem storeInv_create (db : DB) (creator : UserRec) (req : MatchCreate)
    (hreq : 0 ≤ req.max_players) (h : StoreInv db) :
    StoreInv (create_match db creator req).db := by
  obtain ⟨hnd, href, hcap⟩ := h
  cases hf : find_field db req.field_id with
  | none => simp only [create_match, hf]; exact ⟨hnd, href, hcap⟩
  | some f =>
    simp only [create_match, hf]
    refine ⟨?_, ?_, ?_⟩
    · show (List.map MatchRec.id (db.matches_ ++ [_])).Nodup
      rw [List.map_append]
      refine List.Nodup.append hnd (List.nodup_singleton _) ?_
      intro a ha hb
      rcases List.mem_map.mp ha with ⟨m, hmm, rfl⟩
      have hlt := id_lt_next_match_id hmm
      have hb2 := List.mem_singleton.mp (by simpa using hb)
      omega
    · intro pm hpm
      rcases href pm hpm with ⟨m, hmm, hmid⟩
      exact ⟨m, List.mem_append_left _ hmm, hmid⟩
    · intro m2 hm2
      rcases List.mem_append.mp hm2 with hm2b | hm2b
      · exact hcap m2 hm2b
      · rcases List.mem_singleton.mp hm2b with rfl
        have hcount : player_count db (next_match_id db) = 0 := by
          unfold player_count
          rw [List.length_eq_zero, List.filter_eq_nil_iff]
          intro pm hpm
          rcases href pm hpm with ⟨m, hmm, hmid⟩
          have := id_lt_next_match_id hmm
          simp only [beq_iff_eq]
          omega
        show ((player_count db (next_match_id db) : Int)) ≤ req.max_players
        rw [hcount]
        simpa using hreq

/-- C2 counterexample: nothing validates `max_players ≥ 0`, so a single
`CreateMatch` with `max_players = -1` (accepted by the request schema,
which only requires an `int`) produces a match whose `player_count` (0)
already exceeds `max_players`: the invariant is violated right after an
operation, starting from a store that satisfied it. -/
theorem capacity_invariant_counterexample :
    StoreInv negDB ∧
    ¬ capacity_ok (runOps negDB [LifecycleOp.create negUser negReq]) := by
  constructor
  · unfold StoreInv match_ids_nodup players_ref_ok capacity_ok
    decide
  · unfold capacity_ok
    decide

/-- C2 (amended): over every sequence of `CreateMatch`/`Join`/`Start`/
`UpdateScore` calls executed sequentially, `player_count ≤ max_players`
holds after every operation, provided the initial store satisfies the
invariant (together with primary-key uniqueness and foreign-key integrity,
which the real database enforces) and every `CreateMatch` request carries
`max_players ≥ 0`: a match is created with zero players, `Join` refuses to
insert once the count reaches `max_players`, and the remaining operations
do not touch the roster or the capacity. -/
theorem capacity_invariant_preserved (ops : List LifecycleOp) :
    ∀ db : DB, StoreInv db → (∀ op ∈ ops, nonneg_capacity op) →
      StoreInv (runOps db ops) := by
  induction ops with
  | nil =>
    intro db hdb _
    exact hdb
  | cons op rest ih =>
    intro db hdb hops
    refine ih (applyOp db op) ?_ (fun o ho => hops o (List.mem_cons_of_mem _ ho))
    cases op with
    | create c r => exact storeInv_create db c r (hops _ (List.mem_cons_self _ _)) hdb
    | join t mid u => exact storeInv_join db t mid u hdb
    | start mid a => exact storeInv_start db mid a hdb
    | score mid a sa sb => exact storeInv_score db mid a sa sb hdb

theorem capacity_invariant_preserved_witness :
    StoreInv (runOps negDB
      [LifecycleOp.create negUser ⟨1, "t", none, 5, 0, 0, 10⟩,
        LifecycleOp.join 5 1 ⟨5, "nina", none⟩]) :=
  capacity_invariant_preserved _ negDB
    (by unfold StoreInv match_ids_nodup players_ref_ok capacity_ok; decide)
    (by
      intro o ho
      rcases List.mem_cons.mp ho with rfl | ho2
      · exact (by decide : (0 : Int) ≤ 10)
      · rcases List.mem_singleton.mp ho2 with rfl
        exact trivial)

theorem join_check_cases (db : DB) (today : Int) (mid uid : Nat) :
    (find_match db mid = none → join_check db today mid uid = some matchNotFoundErr) ∧
    ∀ m, find_match db mid = some m →
      (m.date < today → join_check db today mid uid = some pastMatchErr) ∧
      (¬ m.date < today → existing_player db mid uid = true →
        join_check db today mid uid = some alreadyJoinedErr) ∧
      (¬ m.date < today → existing_player db mid uid = false →
        m.max_players ≤ (player_count db mid : Int) →
        join_check db today mid uid = some matchFullErr) ∧
      (¬ m.date < today → existing_player db mid uid = false →
        (player_count db mid : Int) < m.max_players →
        join_check db today mid uid = none) := by
  constructor
  · intro h
    simp [join_check, h]
  · intro m hm
    refine ⟨?_, ?_, ?_, ?_⟩
    · intro hd
      simp [join_check, hm, hd]
    · intro hd he
      simp [join_check, hm, hd, he]
    · intro hd he hc
      simp [join_check, hm, hd, he, hc]
    · intro hd he hc
      simp [join_check, hm, hd, he, not_le.mpr hc]

theorem join_match_check_insert (db : DB) (today : Int) (mid : Nat) (u : UserRec)
    (h : join_check db today mid u.id = none) :
    (join_match db today mid u).res = .ok ∧
    (join_match db today mid u).db = join_insert db mid u.id := by
  obtain ⟨hmnone, hmsome⟩ := join_match_cases db today mid u
  obtain ⟨hcnone, hcsome⟩ := join_check_cases db today mid u.id
  cases hm : find_match db mid with
  | none => exact (Option.some_ne_none _ ((hcnone hm).symm.trans h)).elim
  | some m =>
    by_cases h1 : m.date < today
    · exact (Option.some_ne_none _ (((hcsome m hm).1 h1).symm.trans h)).elim
    by_cases h2 : existing_player db mid u.id = true
    · exact (Option.some_ne_none _
        (((hcsome m hm).2.1 h1 h2).symm.trans h)).elim
    have h2f : existing_player db mid u.id = false := by simpa using h2
    by_cases h3 : m.max_players ≤ (player_count db mid : Int)
    · exact (Option.some_ne_none _
        (((hcsome m hm).2.2.1 h1 h2f h3).symm.trans h)).elim
    rw [(hmsome m hm).2.2.2 h1 h2f (lt_of_not_le h3)]
    exact ⟨rfl, rfl⟩

/-- C4, behaviour of the code at the failing interleaving: `join_match` is
a read phase (`join_check`: the SELECTs of lines 841-861) followed by a
write phase (`join_insert`: the INSERT/commit of lines 864-866), with no
lock or transaction serializing them per match. Against a capacity-1 match
with zero players, both users' read phases pass when they run before
either write commits; user 1's call then succeeds and commits its row, and
user 2's already-validated write phase commits a second row: the roster
reaches 2 players on a `max_players = 1` match, instead of the claimed
one-success-one-failure outcome. -/
theorem join_race_overshoots_capacity :
    join_check raceDB 5 1 raceU1.id = none ∧
    join_check raceDB 5 1 raceU2.id = none ∧
    (join_match raceDB 5 1 raceU1).res = .ok ∧
    (join_match raceDB 5 1 raceU1).db = join_insert raceDB 1 raceU1.id ∧
    player_count (join_insert (join_insert raceDB 1 raceU1.id) 1 raceU2.id) 1 = 2 ∧
    (find_match raceDB 1).map MatchRec.max_players = some 1 := by
  refine ⟨by decide, by decide, by decide, by decide, by decide, by decide⟩

/-- C5: `publish_mqtt_message` never lets an error escape to its caller:
for every connection state and every behaviour of the underlying client
(success, error code, raised exception) it returns normally with a Boolean
— in particular, with the connection down it returns `False` after
logging — and the handler result computed before the publish call is
unaffected by the publish outcome, so the state transition that triggered
the publish is still reported as success. -/
theorem publish_mqtt_never_raises (c p : Bool) (b : PublishBehavior) (op : OpResult) :
    (∃ v : Bool, publish_mqtt_message c p b = .ok v) ∧
    (c = false → publish_mqtt_message c p b = .ok false) ∧
    (run_and_publish op c p b).1 = op := by
  refine ⟨?_, ?_, rfl⟩
  · cases c <;> cases p <;> cases b <;> exact ⟨_, rfl⟩
  · intro hc
    subst hc
    cases p <;> cases b <;> rfl

theorem publish_mqtt_never_raises_witness :
    publish_mqtt_message false true .raisesExc = .ok false ∧
    (run_and_publish ⟨.ok, negDB, []⟩ false true .raisesExc).1 = ⟨.ok, negDB, []⟩ :=
  ⟨(publish_mqtt_never_raises false true .raisesExc ⟨.ok, negDB, []⟩).2.1 rfl,
    (publish_mqtt_never_raises false true .raisesExc ⟨.ok, negDB, []⟩).2.2⟩

/-- C7: when the resolved target list is empty after dropping falsy and
blank tokens, `send_batch_push_notifications` returns normally with a
"nothing to send" outcome — the provider multicast is never invoked and
the reported success count is zero — for any Firebase state and any
provider behaviour. -/
theorem send_batch_empty_targets (fb : Bool) (tokens : List String)
    (pb : ProviderBehavior) (h : valid_tokens tokens = []) :
    send_batch_push_notifications fb tokens pb = ⟨false, 0, false⟩ := by
  unfold send_batch_push_notifications
  cases fb
  · rfl
  · simp [h]

theorem send_batch_empty_targets_witness :
    send_batch_push_notifications true ["", "  "] ProviderBehavior.raisesExc =
      ⟨false, 0, false⟩ :=
  send_batch_empty_targets true ["", "  "] .raisesExc (by decide)

/-- C8 counterexample: the regional topic the code publishes on is rooted
at `futside/matches`, not `matches`: creating a match at a field in city
`Brasilia` publishes its single `new_match` envelope on
`futside/matches/brasilia`, not on the claimed `matches/brasilia`. -/
theorem regional_topic_counterexample :
    (create_match subDB ⟨1, "creator", some "tokC"⟩ wReq).published.map
        PublishReq.topic = ["futside/matches/brasilia"] ∧
    "futside/matches/brasilia" ≠ "matches/brasilia" :=
  ⟨by decide, by decide⟩

/-- C8 (amended): for every match created at an existing field with city
`c`, exactly one `new_match` envelope is published, on the region topic
`futside/matches/<normalized c>` where the city is normalized by
lower-casing and replacing spaces with hyphens (so `Brasilia` yields
`futside/matches/brasilia`); when the field is absent nothing is
published. -/
theorem create_match_regional_publish (db : DB) (creator : UserRec) (req : MatchCreate) :
    (find_field db req.field_id = none → (create_match db creator req).published = []) ∧
    ∀ f, find_field db req.field_id = some f →
      (create_match db creator req).published =
        [⟨"futside/matches/" ++ normalize_city f.city,
          ⟨"new_match",
            .newMatch
              { id := next_match_id db, field_id := req.field_id,
                creator_id := creator.id, title := req.title, descr := req.descr,
                date := req.date, start_time := req.start_time,
                end_time := req.end_time, max_players := req.max_players,
                status := .scheduled, score_a := 0, score_b := 0 }⟩⟩] := by
  constructor
  · intro h
    simp [create_match, h]
  · intro f hf
    simp [create_match, hf, regional_topic, MQTT_TOPIC_REGIONAL_BASE]

theorem create_match_regional_publish_witness :
    (create_match wDB wUser wReq).published.map PublishReq.topic =
      ["futside/matches/" ++ normalize_city "Brasilia"] := by
  rw [(create_match_regional_publish wDB wUser wReq).2 ⟨1, "Brasilia"⟩ (by decide)]
  rfl

theorem mem_subscribed_user_ids (db : DB) (city : String) (i : Nat) :
    i ∈ subscribed_user_ids db city ↔
      ∃ s ∈ db.subscriptions, s.user_id = i ∧ py_lower s.city = py_lower city := by
  unfold subscribed_user_ids
  rw [List.mem_dedup, List.mem_map]
  constructor
  · rintro ⟨s, hs, rfl⟩
    rcases List.mem_filter.mp hs with ⟨hmem, hpred⟩
    exact ⟨s, hmem, rfl, by simpa using hpred⟩
  · rintro ⟨s, hmem, rfl, hcity⟩
    exact ⟨s, List.mem_filter.mpr ⟨hmem, by simpa using hcity⟩, rfl⟩

/-- C6: the recipient resolution performed on match creation returns
exactly the users subscribed to the field's city under case-insensitive
comparison, minus the acting (excluded) user, minus every user without a
usable notification token (`NULL` or empty); the result holds each
recipient once when the user table is duplicate-free (the subscription
side is deduplicated by the set comprehension), and when nobody is
subscribed to the city the result is the empty list — resolution is a
total function, so no error is raised. -/
theorem resolve_recipients_characterization (db : DB) (city : String) (excludeId : Nat) :
    (∀ u, u ∈ resolve_recipients db city excludeId ↔
      u ∈ db.users ∧
      (∃ s ∈ db.subscriptions, s.user_id = u.id ∧ py_lower s.city = py_lower city) ∧
      u.id ≠ excludeId ∧ token_present u = true) ∧
    (db.users.Nodup → (resolve_recipients db city excludeId).Nodup) ∧
    ((∀ s ∈ db.subscriptions, py_lower s.city ≠ py_lower city) →
      resolve_recipients db city excludeId = []) := by
  refine ⟨?_, ?_, ?_⟩
  · intro u
    unfold resolve_recipients
    by_cases hemp : (subscribed_user_ids db city).isEmpty = true
    · rw [if_pos hemp]
      simp only [List.not_mem_nil, false_iff]
      rintro ⟨_, ⟨s, hs, hsid, hscity⟩, _, _⟩
      have hin : s.user_id ∈ subscribed_user_ids db city :=
        (mem_subscribed_user_ids db city s.user_id).mpr ⟨s, hs, rfl, hscity⟩
      have hnil : subscribed_user_ids db city = [] := by simpa using hemp
      rw [hnil] at hin
      cases hin
    · rw [if_neg hemp, List.mem_filter]
      constructor
      · rintro ⟨hmem, hpred⟩
        simp only [Bool.and_eq_true] at hpred
        obtain ⟨⟨hcont, hne⟩, htok⟩ := hpred
        have hids : u.id ∈ subscribed_user_ids db city := by simpa using hcont
        exact ⟨hmem, (mem_subscribed_user_ids db city u.id).mp hids,
          by simpa using hne, htok⟩
      · rintro ⟨hmem, hsub, hne, htok⟩
        refine ⟨hmem, ?_⟩
        simp only [Bool.and_eq_true]
        exact ⟨⟨by simpa using (mem_subscribed_user_ids db city u.id).mpr hsub,
          by simpa using hne⟩, htok⟩
  · intro hnd
    unfold resolve_recipients
    by_cases hemp : (subscribed_user_ids db city).isEmpty = true
    · rw [if_pos hemp]
      exact List.nodup_nil
    · rw [if_neg hemp]
      exact hnd.filter _
  · intro hno
    unfold resolve_recipients
    have hnil : subscribed_user_ids db city = [] := by
      unfold subscribed_user_ids
      rw [List.dedup_eq_nil]
      rw [List.map_eq_nil_iff, List.filter_eq_nil_iff]
      intro s hs
      simpa using hno s hs
    rw [if_pos (by simp [hnil])]

theorem resolve_recipients_characterization_witness :
    (⟨2, "bia", some "tokB"⟩ : UserRec) ∈ resolve_recipients subDB "brasilia" 1 ∧
    (resolve_recipients subDB "Brasilia" 1).Nodup :=
  ⟨((resolve_recipients_characterization subDB "brasilia" 1).1 _).mpr
      ⟨by decide, ⟨⟨2, "brasilia"⟩, by decide, by decide, by decide⟩,
        by decide, by decide⟩,
    (resolve_recipients_characterization subDB "Brasilia" 1).2.1 (by decide)⟩
